import Mathlib

/-!
Shallow embedding of the LC-3 virtual machine from `src/main.rs`.

State is a record of the ten 16-bit registers (indices 0..7 general purpose,
8 = PC, 9 = COND), the 65536-word memory, the pending stdin bytes and the
stdout bytes written so far.  Machine words are modelled as `Nat` with
explicit `% 65536` where the Rust code truncates (`as u16` casts).  Rust
`u16` additions written without a widening cast (`+=` in `add_pc`, and the
address increments in the trap string loops and the image loader) overflow
at 65536; under Rust's checked arithmetic (the default dev profile) such an
overflow panics, which the embedding models as `Option.none`.  A blocking
`read_exact` on an exhausted stdin is likewise modelled as `none`.
-/

namespace LC3

def MEMORY_MAX : Nat := 1 <<< 16

def PC_START : Nat := 0x3000

def MR_KBSR : Nat := 0xFE00

def MR_KBDR : Nat := 0xFE02

/-- The ten register names of `enum RegisterType`. -/
inductive RegisterType
  | R0 | R1 | R2 | R3 | R4 | R5 | R6 | R7 | PC | COND
deriving DecidableEq

/-- The opcode enumeration `enum Op`. -/
inductive Op
  | BR | ADD | LD | ST | JSR | AND | LDR | STR | RTI | NOT | LDI | STI
  | JMP | RES | LEA | TRAP | Unknown
deriving DecidableEq

/-- `fn get_op(op_code: u16) -> Op`. -/
def get_op (op_code : Nat) : Op :=
  match op_code with
  | 0 => Op.BR
  | 1 => Op.ADD
  | 2 => Op.LD
  | 3 => Op.ST
  | 4 => Op.JSR
  | 5 => Op.AND
  | 6 => Op.LDR
  | 7 => Op.STR
  | 8 => Op.RTI
  | 9 => Op.NOT
  | 10 => Op.LDI
  | 11 => Op.STI
  | 12 => Op.JMP
  | 13 => Op.RES
  | 14 => Op.LEA
  | 15 => Op.TRAP
  | _ => Op.Unknown

/-- Pointwise update of a function, used for register and memory writes. -/
def upd (f : Nat → Nat) (a v : Nat) : Nat → Nat :=
  fun x => if x = a then v else f x

/-- `struct VM { regs, memory }` together with the process's stdin and
stdout streams, which the trap routines and the keyboard MMIO touch. -/
structure VM where
  regs : Nat → Nat
  memory : Nat → Nat
  input : List Nat
  output : List Nat
  halted : Bool

/-- `VM::get_index`: register enum to index. -/
def get_index : RegisterType → Nat
  | RegisterType.R0 => 0
  | RegisterType.R1 => 1
  | RegisterType.R2 => 2
  | RegisterType.R3 => 3
  | RegisterType.R4 => 4
  | RegisterType.R5 => 5
  | RegisterType.R6 => 6
  | RegisterType.R7 => 7
  | RegisterType.PC => 8
  | RegisterType.COND => 9

/-- `VM::new`: zero registers and memory, PC set to `PC_START`. -/
def VM.new : VM :=
  { regs := upd (fun _ => 0) (get_index RegisterType.PC) PC_START
    memory := fun _ => 0
    input := []
    output := []
    halted := false }

/-- `VM::read_reg`. -/
def VM.read_reg (vm : VM) (t : RegisterType) : Nat :=
  vm.regs (get_index t)

/-- `VM::write_reg`. -/
def VM.write_reg (vm : VM) (t : RegisterType) (v : Nat) : VM :=
  { vm with regs := upd vm.regs (get_index t) v }

/-- `VM::read_reg_by_index`. -/
def VM.read_reg_by_index (vm : VM) (i : Nat) : Nat :=
  vm.regs i

/-- `VM::write_reg_by_index`. -/
def VM.write_reg_by_index (vm : VM) (i : Nat) (v : Nat) : VM :=
  { vm with regs := upd vm.regs i v }

/-- `VM::read_pc`. -/
def VM.read_pc (vm : VM) : Nat :=
  vm.regs (get_index RegisterType.PC)

/-- `VM::add_pc`: `self.regs[PC] += 1` on a `u16`.  The bare `+=` overflows
when PC is 0xFFFF; with overflow checks (Rust's default dev profile) this
panics rather than wrapping, modelled as `none`. -/
def VM.add_pc (vm : VM) : Option VM :=
  if vm.regs (get_index RegisterType.PC) + 1 < 65536 then
    some { vm with regs := upd vm.regs (get_index RegisterType.PC)
                             (vm.regs (get_index RegisterType.PC) + 1) }
  else
    none

/-- `fn check_key() -> bool { true }` — the key-availability predicate is
hard-coded to `true` in the source. -/
def check_key : Bool := true

/-- `fn read_char() -> u8`: a blocking `read_exact` of one byte from stdin.
With no byte available it never completes normally (it blocks, or panics on
a closed stream), modelled as `none`. -/
def VM.read_char (vm : VM) : Option (Nat × VM) :=
  match vm.input with
  | [] => none
  | b :: rest => some (b, { vm with input := rest })

/-- `VM::write_memory`. -/
def VM.write_memory (vm : VM) (address val : Nat) : VM :=
  { vm with memory := upd vm.memory address val }

/-- `VM::read_memory`: intercepts address `MR_KBSR` (0xFE00), where it
consults `check_key`; on the (always-taken) available branch it stores
`1 << 15` at 0xFE00 and the next stdin byte at 0xFE02, then returns the
word now at the requested address. -/
def VM.read_memory (vm : VM) (address : Nat) : Option (Nat × VM) :=
  if address = MR_KBSR then
    if check_key then
      let vm1 := vm.write_memory MR_KBSR (1 <<< 15)
      match vm1.read_char with
      | none => none
      | some (c, vm2) =>
        let vm3 := vm2.write_memory MR_KBDR c
        some (vm3.memory address, vm3)
    else
      let vm1 := vm.write_memory MR_KBSR 0
      some (vm1.memory address, vm1)
  else
    some (vm.memory address, vm)

/-- `VM::update_flags_by_val`: zero stores `1 << 1`; a value with bit 15
set stores `1 << 2`; any other value stores `1 << 0` into COND. -/
def VM.update_flags_by_val (vm : VM) (val : Nat) : VM :=
  if val = 0 then
    vm.write_reg RegisterType.COND (1 <<< 1)
  else if (val >>> 15) &&& 0x1 = 1 then
    vm.write_reg RegisterType.COND (1 <<< 2)
  else
    vm.write_reg RegisterType.COND (1 <<< 0)

/-- `VM::update_flags_by_index`. -/
def VM.update_flags_by_index (vm : VM) (i : Nat) : VM :=
  vm.update_flags_by_val (vm.read_reg_by_index i)

/-- `VM::update_flags`. -/
def VM.update_flags (vm : VM) (t : RegisterType) : VM :=
  vm.update_flags_by_val (vm.read_reg t)

/-- `fn sign_extend(imm: u16, len: i32) -> u16`.  The `0xffff << len`
is a `u16` shift, hence the `% 65536` truncation. -/
def sign_extend (imm : Nat) (len : Nat) : Nat :=
  if (imm >>> (len - 1)) &&& 0x1 = 0 then
    imm
  else
    imm ||| ((0xffff <<< len) % 65536)

/-- `fn br`: if the nzp mask meets COND, PC gets the `u32` sum of PC and
the sign-extended 9-bit offset truncated `as u16`, i.e. `% 65536`. -/
def br (vm : VM) (instr : Nat) : VM :=
  let flags := (instr >>> 9) &&& 0x7
  let pc_offset := sign_extend (instr &&& 0x1ff) 9
  if flags &&& vm.read_reg RegisterType.COND ≠ 0 then
    vm.write_reg RegisterType.PC ((vm.read_pc + pc_offset) % 65536)
  else
    vm

/-- `fn add`: register or immediate form, `u32` sum truncated `as u16`,
then a flag update from the destination register. -/
def add (vm : VM) (instr : Nat) : VM :=
  let r0 := (instr >>> 9) &&& 0x7
  let r1 := (instr >>> 6) &&& 0x7
  let imm5_flag := (instr >>> 5) &&& 0x1
  let vm1 :=
    if imm5_flag = 0 then
      let r2 := instr &&& 0x7
      vm.write_reg_by_index r0
        ((vm.read_reg_by_index r1 + vm.read_reg_by_index r2) % 65536)
    else
      let imm5 := sign_extend (instr &&& 0x1f) 5
      vm.write_reg_by_index r0 ((vm.read_reg_by_index r1 + imm5) % 65536)
  vm1.update_flags_by_index r0

/-- `fn ld`: load from PC plus the sign-extended 9-bit offset. -/
def ld (vm : VM) (instr : Nat) : Option VM :=
  let r0 := (instr >>> 9) &&& 0x7
  let pc_offset := sign_extend (instr &&& 0x1ff) 9
  let mem_add := (vm.read_pc + pc_offset) % 65536
  match vm.read_memory mem_add with
  | none => none
  | some (mem_val, vm1) =>
    some ((vm1.write_reg_by_index r0 mem_val).update_flags_by_index r0)

/-- `fn st`: store the source register at PC plus the sign-extended
9-bit offset. -/
def st (vm : VM) (instr : Nat) : VM :=
  let r0 := (instr >>> 9) &&& 0x7
  let pc_offset := sign_extend (instr &&& 0x1ff) 9
  let mem_add := (vm.read_pc + pc_offset) % 65536
  vm.write_memory mem_add (vm.read_reg_by_index r0)

/-- `fn jsr`: save PC to R7, then jump via register or PC-relative. -/
def jsr (vm : VM) (instr : Nat) : VM :=
  let vm0 := vm.write_reg RegisterType.R7 (vm.read_reg RegisterType.PC)
  let flag := (instr >>> 11) &&& 0x1
  if flag = 0 then
    let base_r := (instr >>> 6) &&& 0x7
    vm0.write_reg RegisterType.PC (vm0.read_reg_by_index base_r)
  else
    let pc_offset := sign_extend (instr &&& 0x7ff) 11
    vm0.write_reg RegisterType.PC
      ((vm0.read_reg RegisterType.PC + pc_offset) % 65536)

/-- `fn and`: bitwise and, register or immediate form, then flags. -/
def and (vm : VM) (instr : Nat) : VM :=
  let r0 := (instr >>> 9) &&& 0x7
  let r1 := (instr >>> 6) &&& 0x7
  let imm5_flag := (instr >>> 5) &&& 0x1
  let vm1 :=
    if imm5_flag = 0 then
      let r2 := instr &&& 0x7
      vm.write_reg_by_index r0
        (vm.read_reg_by_index r1 &&& vm.read_reg_by_index r2)
    else
      let imm5 := sign_extend (instr &&& 0x1f) 5
      vm.write_reg_by_index r0 (vm.read_reg_by_index r1 &&& imm5)
  vm1.update_flags_by_index r0

/-- `fn ldr`: load from base register plus the sign-extended 6-bit
offset. -/
def ldr (vm : VM) (instr : Nat) : Option VM :=
  let r0 := (instr >>> 9) &&& 0x7
  let r1 := (instr >>> 6) &&& 0x7
  let offset := sign_extend (instr &&& 0x3f) 6
  let mem_add := (vm.read_reg_by_index r1 + offset) % 65536
  match vm.read_memory mem_add with
  | none => none
  | some (mem_val, vm1) =>
    some ((vm1.write_reg_by_index r0 mem_val).update_flags_by_index r0)

/-- `fn str`: store the source register at base register plus the
sign-extended 6-bit offset. -/
def str (vm : VM) (instr : Nat) : VM :=
  let r0 := (instr >>> 9) &&& 0x7
  let r1 := (instr >>> 6) &&& 0x7
  let offset := sign_extend (instr &&& 0x3f) 6
  vm.write_memory ((vm.read_reg_by_index r1 + offset) % 65536)
    (vm.read_reg_by_index r0)

/-- `fn not`: bitwise complement on a `u16` (xor with 0xffff on values
below 65536), then flags. -/
def not (vm : VM) (instr : Nat) : VM :=
  let r0 := (instr >>> 9) &&& 0x7
  let r1 := (instr >>> 6) &&& 0x7
  let vm1 := vm.write_reg_by_index r0 (vm.read_reg_by_index r1 ^^^ 0xffff)
  vm1.update_flags_by_index r0

/-- `fn ldi`: indirect load through two memory reads. -/
def ldi (vm : VM) (instr : Nat) : Option VM :=
  let r0 := (instr >>> 9) &&& 0x7
  let pc_offset := sign_extend (instr &&& 0x1ff) 9
  let first_mem_add := (vm.read_pc + pc_offset) % 65536
  match vm.read_memory first_mem_add with
  | none => none
  | some (second_mem_add, vm1) =>
    match vm1.read_memory second_mem_add with
    | none => none
    | some (res, vm2) =>
      some ((vm2.write_reg_by_index r0 res).update_flags_by_index r0)

/-- `fn sti`: store through the address read from PC plus offset. -/
def sti (vm : VM) (instr : Nat) : Option VM :=
  let r0 := (instr >>> 9) &&& 0x7
  let pc_offset := sign_extend (instr &&& 0x1ff) 9
  let read_mem_add := (vm.read_pc + pc_offset) % 65536
  match vm.read_memory read_mem_add with
  | none => none
  | some (write_mem_add, vm1) =>
    some (vm1.write_memory write_mem_add (vm1.read_reg_by_index r0))

/-- `fn jmp`: PC gets the base register. -/
def jmp (vm : VM) (instr : Nat) : VM :=
  let r0 := (instr >>> 6) &&& 0x7
  vm.write_reg RegisterType.PC (vm.read_reg_by_index r0)

/-- `fn lea`: the destination register gets PC plus the sign-extended
9-bit offset, then flags. -/
def lea (vm : VM) (instr : Nat) : VM :=
  let r0 := (instr >>> 9) &&& 0x7
  let pc_offset := sign_extend (instr &&& 0x1ff) 9
  let val := (vm.read_pc + pc_offset) % 65536
  (vm.write_reg_by_index r0 val).update_flags_by_index r0

/-- The loop of trap 0x22 (PUTS): read the word at `start`, stop on a zero
word, otherwise print its low byte and advance.  The `start += 1` is an
unchecked `u16` increment, so passing 0xFFFF overflows (`none`). -/
def puts_loop (vm : VM) (start : Nat) : Option VM :=
  match vm.read_memory start with
  | none => none
  | some (c, vm1) =>
    if c = 0 then
      some vm1
    else
      let vm2 := { vm1 with output := vm1.output ++ [c % 256] }
      if h : start + 1 < 65536 then
        puts_loop vm2 (start + 1)
      else
        none
termination_by 65536 - start
decreasing_by omega

/-- The loop of trap 0x24 (PUTSP): read the word at `start_address`, stop
on a zero word, otherwise print the low byte, then the high byte when it
is nonzero, and advance.  The `start_address += 1` is an unchecked `u16`
increment, so passing 0xFFFF overflows (`none`). -/
def putsp_loop (vm : VM) (start_address : Nat) : Option VM :=
  match vm.read_memory start_address with
  | none => none
  | some (c, vm1) =>
    if c = 0 then
      some vm1
    else
      let c1 := c % 256
      let vm2 := { vm1 with output := vm1.output ++ [c1] }
      let c2 := (c >>> 8) % 256
      let vm3 :=
        if c2 ≠ 0 then { vm2 with output := vm2.output ++ [c2] } else vm2
      if h : start_address + 1 < 65536 then
        putsp_loop vm3 (start_address + 1)
      else
        none
termination_by 65536 - start_address
decreasing_by omega

/-- The bytes of the prompt printed by trap 0x23 (IN). -/
def prompt_bytes : List Nat :=
  "Enter a character: ".data.map Char.toNat

/-- The bytes printed by trap 0x25 (HALT), `println!("HALT!")`. -/
def halt_bytes : List Nat :=
  "HALT!\n".data.map Char.toNat

/-- `fn trap`: saves PC into R7, then dispatches on the low 8 bits of the
instruction; any vector other than 0x20..0x25 falls through to the empty
default arm. -/
def trap (vm : VM) (instr : Nat) : Option VM :=
  let pc_val := vm.read_pc
  let vm0 := vm.write_reg RegisterType.R7 pc_val
  let vector := instr &&& 0xff
  if vector = 0x20 then
    match vm0.read_char with
    | none => none
    | some (c, vm1) =>
      some ((vm1.write_reg RegisterType.R0 c).update_flags RegisterType.R0)
  else if vector = 0x21 then
    some { vm0 with output := vm0.output ++ [vm0.read_reg RegisterType.R0 % 256] }
  else if vector = 0x22 then
    puts_loop vm0 (vm0.read_reg RegisterType.R0)
  else if vector = 0x23 then
    let vm1 := { vm0 with output := vm0.output ++ prompt_bytes }
    match vm1.read_char with
    | none => none
    | some (c, vm2) =>
      let vm3 := { vm2 with output := vm2.output ++ [c % 256] }
      some ((vm3.write_reg RegisterType.R0 c).update_flags RegisterType.R0)
  else if vector = 0x24 then
    putsp_loop vm0 (vm0.read_reg RegisterType.R0)
  else if vector = 0x25 then
    some { vm0 with output := vm0.output ++ halt_bytes, halted := true }
  else
    some vm0

/-- One iteration of the fetch-decode-execute loop in `fn main`: read PC,
increment it, fetch the instruction at the old PC, decode the top four
bits and dispatch; opcodes without an arm (RTI, RES, Unknown) fall through
to the empty default arm. -/
def step (vm : VM) : Option VM :=
  let pc_val := vm.read_pc
  match vm.add_pc with
  | none => none
  | some vm1 =>
    match vm1.read_memory pc_val with
    | none => none
    | some (instr, vm2) =>
      match get_op (instr >>> 12) with
      | Op.BR => some (br vm2 instr)
      | Op.ADD => some (add vm2 instr)
      | Op.LD => ld vm2 instr
      | Op.ST => some (st vm2 instr)
      | Op.JSR => some (jsr vm2 instr)
      | Op.AND => some (and vm2 instr)
      | Op.LDR => ldr vm2 instr
      | Op.STR => some (str vm2 instr)
      | Op.NOT => some (not vm2 instr)
      | Op.LDI => ldi vm2 instr
      | Op.STI => sti vm2 instr
      | Op.JMP => some (jmp vm2 instr)
      | Op.LEA => some (lea vm2 instr)
      | Op.TRAP => trap vm2 instr
      | _ => some vm2

/-- The loop of `fn read_image`: take two bytes at a time, store the
big-endian word at `origin`, and advance `origin`.  A lone trailing byte,
like an exhausted stream, is an `UnexpectedEof` that ends the loop
cleanly.  The `origin += 1` is an unchecked `u16` increment, so passing
0xFFFF overflows (`none`). -/
def read_image_loop : VM → Nat → List Nat → Option VM
  | vm, _, [] => some vm
  | vm, _, [_] => some vm
  | vm, origin, b0 :: b1 :: rest =>
    let vm1 := vm.write_memory origin ((b0 <<< 8) ||| b1)
    if origin + 1 < 65536 then
      read_image_loop vm1 (origin + 1) rest
    else
      none

/-- `fn read_image` on the image's byte stream: the first two bytes form
the big-endian origin (fewer than two is a read error, `none`), then the
loop stores the remaining big-endian words consecutively. -/
def read_image (vm : VM) (bytes : List Nat) : Option VM :=
  match bytes with
  | b0 :: b1 :: rest => read_image_loop vm ((b0 <<< 8) ||| b1) rest
  | _ => none

/-- The 16-bit two's-complement reading of a `w`-bit unsigned value. -/
def toSigned (x : Nat) (w : Nat) : Int :=
  if x < 2 ^ (w - 1) then (x : Int) else (x : Int) - 2 ^ w

/-- Specification-side description of the image loader's effect: store the
words of `ws` at consecutive addresses starting at `origin`. -/
def store_words (mem : Nat → Nat) (origin : Nat) : List Nat → (Nat → Nat)
  | [] => mem
  | w :: ws => store_words (upd mem origin w) (origin + 1) ws

lemma upd_self (f : Nat → Nat) (a v : Nat) : upd f a v a = v := by
  simp [upd]

lemma upd_other (f : Nat → Nat) (a v x : Nat) (h : x ≠ a) : upd f a v x = f x := by
  simp [upd, h]

/-- Bit 15 of a 16-bit value is set exactly when the value is at least
0x8000. -/
lemma shift15_and_one (val : Nat) (h : val < 65536) :
    (val >>> 15) &&& 0x1 = 1 ↔ 32768 ≤ val := by
  rw [Nat.and_one_is_mod, Nat.shiftRight_eq_div_pow]
  omega

/-- The condition value computed by `update_flags_by_val`, as a single
arithmetic conditional. -/
lemma update_flags_by_val_cond (vm : VM) (val : Nat) (h : val < 65536) :
    (vm.update_flags_by_val val).regs 9 =
      if val = 0 then 2 else if 32768 ≤ val then 4 else 1 := by
  unfold VM.update_flags_by_val VM.write_reg get_index
  by_cases h0 : val = 0
  · simp [h0, upd_self]
  · by_cases h15 : (val >>> 15) &&& 0x1 = 1
    · have h32 : 32768 ≤ val := (shift15_and_one val h).mp h15
      rw [if_neg h0, if_pos h15, if_neg h0, if_pos h32]
      exact upd_self vm.regs 9 4
    · have h32 : ¬ 32768 ≤ val := fun hc => h15 ((shift15_and_one val h).mpr hc)
      rw [if_neg h0, if_neg h15, if_neg h0, if_neg h32]
      exact upd_self vm.regs 9 1

/-- Claim C1 (amended): for every machine state and register index `r`
with a 16-bit register file, the flag update sets COND to 4 when bit 15 of
`reg[r]` is set (i.e. `reg[r] ≥ 0x8000`), to 2 when `reg[r]` is zero, and
to 1 otherwise; the result is always exactly one of {1, 2, 4}. -/
theorem update_flags_encoding (vm : VM) (r : Nat) (h : vm.regs r < 65536) :
    ((vm.regs r = 0 → (vm.update_flags_by_index r).regs 9 = 2) ∧
     (32768 ≤ vm.regs r → (vm.update_flags_by_index r).regs 9 = 4) ∧
     (vm.regs r ≠ 0 → vm.regs r < 32768 → (vm.update_flags_by_index r).regs 9 = 1)) ∧
    ((vm.update_flags_by_index r).regs 9 = 1 ∨ (vm.update_flags_by_index r).regs 9 = 2 ∨
      (vm.update_flags_by_index r).regs 9 = 4) := by
  have hc := update_flags_by_val_cond vm (vm.regs r) h
  unfold VM.update_flags_by_index VM.read_reg_by_index
  rw [hc]
  refine ⟨⟨?_, ?_, ?_⟩, ?_⟩
  · intro h0; simp [h0]
  · intro h32
    have h0 : vm.regs r ≠ 0 := by omega
    simp [h0, h32]
  · intro h0 h32
    have h32n : ¬ 32768 ≤ vm.regs r := by omega
    simp [h0, h32n]
  · by_cases h0 : vm.regs r = 0
    · simp [h0]
    · by_cases h32 : 32768 ≤ vm.regs r <;> simp [h0, h32]

/-- Witness for `update_flags_encoding` at a concrete register value. -/
theorem update_flags_encoding_witness :
    ({ VM.new with regs := upd VM.new.regs 0 0x8000 } : VM).regs 0 < 65536 ∧
    (({ VM.new with regs := upd VM.new.regs 0 0x8000 } : VM).update_flags_by_index 0).regs 9 = 4 :=
  ⟨by decide,
    (update_flags_encoding { VM.new with regs := upd VM.new.regs 0 0x8000 } 0
      (by decide)).1.2.1 (by decide)⟩

/-- Claim C1, as stated, is false on the code: with `reg[0] = 0x8000`
(bit 15 set) the flag update stores 4 into COND, not the claimed 1. -/
theorem update_flags_claim_counterexample :
    (({ VM.new with regs := upd VM.new.regs 0 0x8000 } : VM).update_flags_by_index 0).regs 9 = 4 ∧
    (({ VM.new with regs := upd VM.new.regs 0 0x8000 } : VM).update_flags_by_index 0).regs 9 ≠ 1 := by
  refine ⟨by decide, by decide⟩

/-- A read of any address other than 0xFE00 returns the memory word there
and leaves the state untouched. -/
lemma read_memory_other (vm : VM) (address : Nat) (h : address ≠ 0xFE00) :
    vm.read_memory address = some (vm.memory address, vm) := by
  unfold VM.read_memory MR_KBSR
  rw [if_neg h]

/-- Claim C2 (amended): one iteration of the PUTSP loop at an address off
the keyboard-status register.  The loop terminates exactly on an all-zero
word; a nonzero word with zero high byte contributes only its low byte and
the loop continues with the next word; a word with both halves nonzero
contributes its low byte then its high byte and the loop continues. -/
theorem putsp_step_characterization (vm : VM) (start : Nat) (hk : start ≠ 0xFE00) :
    (vm.memory start = 0 → putsp_loop vm start = some vm) ∧
    (vm.memory start % 256 ≠ 0 → (vm.memory start >>> 8) % 256 = 0 → start + 1 < 65536 →
      putsp_loop vm start =
        putsp_loop { vm with output := vm.output ++ [vm.memory start % 256] } (start + 1)) ∧
    (vm.memory start ≠ 0 → (vm.memory start >>> 8) % 256 ≠ 0 → start + 1 < 65536 →
      putsp_loop vm start =
        putsp_loop
          { vm with output := vm.output ++ [vm.memory start % 256, (vm.memory start >>> 8) % 256] }
          (start + 1)) := by
  refine ⟨?_, ?_, ?_⟩
  · intro h0
    rw [putsp_loop, read_memory_other vm start hk]
    simp [h0]
  · intro hlow hhigh hfit
    have h0 : vm.memory start ≠ 0 := by
      intro hc
      exact hlow (by rw [hc])
    rw [putsp_loop, read_memory_other vm start hk]
    simp only [h0, if_neg h0, hhigh, ne_eq, not_true_eq_false, if_false,
      not_false_eq_true, hfit, dif_pos]
  · intro h0 hhigh hfit
    rw [putsp_loop, read_memory_other vm start hk]
    simp only [h0, if_neg h0, ne_eq, hfit, dif_pos]
    simp [hhigh]

/-- Witness for `putsp_step_characterization`: a word 0x0041 (high byte
zero, low byte nonzero) contributes its low byte and the loop continues. -/
theorem putsp_step_characterization_witness :
    ((0x3000 : Nat) ≠ 0xFE00 ∧
      ({ VM.new with memory := upd VM.new.memory 0x3000 0x41 } : VM).memory 0x3000 % 256 ≠ 0) ∧
    putsp_loop { VM.new with memory := upd VM.new.memory 0x3000 0x41 } 0x3000 =
      putsp_loop
        { { VM.new with memory := upd VM.new.memory 0x3000 0x41 } with
            output := ({ VM.new with memory := upd VM.new.memory 0x3000 0x41 } : VM).output ++
              [({ VM.new with memory := upd VM.new.memory 0x3000 0x41 } : VM).memory 0x3000 % 256] }
        (0x3000 + 1) :=
  ⟨⟨by decide, by decide⟩,
    (putsp_step_characterization { VM.new with memory := upd VM.new.memory 0x3000 0x41 } 0x3000
      (by decide)).2.1 (by decide) (by decide) (by decide)⟩

/-- Claim C2, as stated, is false on the code: with GR0 = 0x3000 and the
words 0x0041, 0x0042, 0x0000 at 0x3000, PUTSP prints both words' low bytes
(the second word lies beyond the first high-byte-zero word), not just the
first one as the claim's termination rule would have it. -/
theorem putsp_claim_counterexample :
    (trap { VM.new with
        regs := upd VM.new.regs 0 0x3000
        memory := upd (upd VM.new.memory 0x3000 0x41) 0x3001 0x42 } 0xF024).map VM.output =
      some [0x41, 0x42] ∧
    (trap { VM.new with
        regs := upd VM.new.regs 0 0x3000
        memory := upd (upd VM.new.memory 0x3000 0x41) 0x3001 0x42 } 0xF024).map VM.output ≠
      some [0x41] := by
  have h : trap { VM.new with
      regs := upd VM.new.regs 0 0x3000
      memory := upd (upd VM.new.memory 0x3000 0x41) 0x3001 0x42 } 0xF024 =
      some { ({ VM.new with
          regs := upd VM.new.regs 0 0x3000
          memory := upd (upd VM.new.memory 0x3000 0x41) 0x3001 0x42 } : VM).write_reg
            RegisterType.R7 0x3000 with output := [0x41, 0x42] } := by
    show putsp_loop (({ VM.new with
        regs := upd VM.new.regs 0 0x3000
        memory := upd (upd VM.new.memory 0x3000 0x41) 0x3001 0x42 } : VM).write_reg
          RegisterType.R7 0x3000) 0x3000 = _
    rw [putsp_loop]
    show putsp_loop { ({ VM.new with
        regs := upd VM.new.regs 0 0x3000
        memory := upd (upd VM.new.memory 0x3000 0x41) 0x3001 0x42 } : VM).write_reg
          RegisterType.R7 0x3000 with output := [0x41] } 0x3001 = _
    rw [putsp_loop]
    show putsp_loop { ({ VM.new with
        regs := upd VM.new.regs 0 0x3000
        memory := upd (upd VM.new.memory 0x3000 0x41) 0x3001 0x42 } : VM).write_reg
          RegisterType.R7 0x3000 with output := [0x41, 0x42] } 0x3002 = _
    rw [putsp_loop]
    rfl
  rw [h]
  exact ⟨rfl, by simp⟩

/-- Claim C3 is contradicted by the code: `check_key` is hard-coded to
`true`, so every read of 0xFE00 takes the key-available branch.  With no
byte pending on stdin the read does not complete normally (the blocking
one-byte `read_exact` never returns), instead of storing 0 at 0xFE00 and
consuming nothing; with a byte pending it stores 0x8000 at 0xFE00 and the
byte at 0xFE02 and consumes it. -/
theorem read_memory_kbsr_always_consumes :
    check_key = true ∧
    VM.new.read_memory 0xFE00 = none ∧
    (VM.read_memory { VM.new with input := [65] } 0xFE00).map
        (fun p => (p.1, p.2.memory 0xFE00, p.2.memory 0xFE02, p.2.input)) =
      some (0x8000, 0x8000, 65, []) ∧
    (VM.read_memory { VM.new with input := [65] } 0x3000).map
        (fun p => (p.1, p.2.memory 0xFE00, p.2.memory 0xFE02, p.2.input)) =
      some (0, 0, 0, [65]) := by
  exact ⟨rfl, rfl, rfl, rfl⟩

/-- Claim C4 (amended): from the initial state with instruction 0x1021
(ADD R0, R0, #1) at 0x3000, one step yields GR0 = 1, PC = 0x3001 and
COND = 1 — the code's encoding of "positive", not the claimed 4. -/
theorem step_add_immediate_scenario :
    (step { VM.new with memory := upd VM.new.memory 0x3000 0x1021 }).map
        (fun v => (v.regs 0, v.regs 8, v.regs 9)) =
      some (1, 0x3001, 1) := by
  rfl

/-- Claim C4, as stated, is false on the code: after the ADD the condition
register holds 1, not 4. -/
theorem step_add_immediate_counterexample :
    (step { VM.new with memory := upd VM.new.memory 0x3000 0x1021 }).map
        (fun v => v.regs 9) = some 1 ∧
    (step { VM.new with memory := upd VM.new.memory 0x3000 0x1021 }).map
        (fun v => v.regs 9) ≠ some 4 := by
  exact ⟨rfl, by decide⟩

/-- Claim C5: the PC-plus-offset computations wrap modulo 2^16, but the
post-fetch increment `add_pc` is a bare `u16 +=`: at PC = 0xFFFF it
overflows (a panic under checked arithmetic) instead of wrapping, while at
any other PC it increments normally. -/
theorem add_pc_overflow :
    VM.add_pc { VM.new with regs := upd VM.new.regs 8 0xFFFF } = none ∧
    (VM.add_pc VM.new).map (fun v => v.regs 8) = some 0x3001 := by
  exact ⟨rfl, rfl⟩


lemma two_pow_16_split (k : Nat) (hk : k ≤ 16) : 2 ^ k * (2 ^ (16 - k) - 1) = 65536 - 2 ^ k := by
  have h : (2:Nat) ^ k * 2 ^ (16 - k) = 65536 := by
    have h16 : k + (16 - k) = 16 := by omega
    rw [← Nat.pow_add, h16]
  rw [Nat.mul_sub, h, Nat.mul_one]

lemma sign_extend_mask (k : Nat) (hk : k ≤ 16) : (0xffff <<< k) % 65536 = 65536 - 2 ^ k := by
  rw [Nat.shiftLeft_eq]
  have hle : (2:Nat) ^ k ≤ 65536 := by
    calc (2:Nat) ^ k ≤ 2 ^ 16 := Nat.pow_le_pow_right (by omega) hk
    _ = 65536 := by norm_num
  have hp : 0 < (2:Nat) ^ k := Nat.two_pow_pos k
  omega

lemma mask_testBit (k j : Nat) (hk : k ≤ 16) :
    (65536 - 2 ^ k).testBit j = (decide (k ≤ j) && decide (j < 16)) := by
  rw [← two_pow_16_split k hk, Nat.testBit_mul_pow_two, Nat.testBit_two_pow_sub_one]
  by_cases h1 : k ≤ j <;> by_cases h2 : j < 16 <;>
    simp [h1, h2] <;> omega



/-- Claim C6: for every k in {5, 6, 9, 11} and v < 2^k, `sign_extend`
returns v unchanged when bit k-1 of v is clear, sets bits k..15 (keeping
bits below k) when it is set, and in all cases the 16-bit result read as
two's complement equals v read as a k-bit two's-complement value. -/
theorem sign_extend_correct :
    ∀ k, (k = 5 ∨ k = 6 ∨ k = 9 ∨ k = 11) → ∀ v, v < 2 ^ k →
      ((v >>> (k - 1)) &&& 0x1 = 0 → sign_extend v k = v) ∧
      ((v >>> (k - 1)) &&& 0x1 = 1 →
        (∀ j, j ≤ 15 → k ≤ j → (sign_extend v k).testBit j = true) ∧
        (∀ j, j < k → (sign_extend v k).testBit j = v.testBit j)) ∧
      toSigned (sign_extend v k) 16 = toSigned v k := by
  intro k hk v hv
  have hk1 : 1 ≤ k := by rcases hk with rfl | rfl | rfl | rfl <;> omega
  have hk2 : k ≤ 15 := by rcases hk with rfl | rfl | rfl | rfl <;> omega
  have hq2 : (2:Nat) ^ (k - 1) * 2 = 2 ^ k := by
    rw [← Nat.pow_succ]
    exact congrArg (fun m => 2 ^ m) (by omega)
  have hqle : (2:Nat) ^ (k - 1) ≤ 16384 := by
    calc (2:Nat) ^ (k - 1) ≤ 2 ^ 14 := Nat.pow_le_pow_right (by omega) (by omega)
    _ = 16384 := by norm_num
  have hple : (2:Nat) ^ k ≤ 32768 := by
    calc (2:Nat) ^ k ≤ 2 ^ 15 := Nat.pow_le_pow_right (by omega) hk2
    _ = 32768 := by norm_num
  have hbit_iff : ((v >>> (k - 1)) &&& 0x1 = 0) ↔ v < 2 ^ (k - 1) := by
    rw [Nat.and_one_is_mod, Nat.shiftRight_eq_div_pow]
    constructor
    · intro h
      by_contra hc
      push_neg at hc
      have h1 : v / 2 ^ (k - 1) = 1 :=
        Nat.div_eq_of_lt_le (by simpa using hc) (by omega)
      rw [h1] at h
      simp at h
    · intro h
      rw [Nat.div_eq_of_lt h]
  have hmask : ∀ _hbit : ¬ (v >>> (k - 1)) &&& 0x1 = 0,
      sign_extend v k = v ||| (65536 - 2 ^ k) := by
    intro hbit
    rw [sign_extend, if_neg hbit, sign_extend_mask k (by omega)]
  have hmask_add : v ||| (65536 - 2 ^ k) = 65536 - 2 ^ k + v := by
    rw [← two_pow_16_split k (by omega), Nat.lor_comm,
      ← Nat.mul_add_lt_is_or hv]
  refine ⟨?_, ?_, ?_⟩
  · intro hbit
    rw [sign_extend, if_pos hbit]
  · intro hbit
    have hbitn : ¬ (v >>> (k - 1)) &&& 0x1 = 0 := by omega
    rw [hmask hbitn]
    constructor
    · intro j hj15 hjk
      have h16 : j < 16 := by omega
      rw [Nat.testBit_or, mask_testBit k j (by omega)]
      simp [hjk, h16]
    · intro j hjk
      have hkj : ¬ k ≤ j := by omega
      rw [Nat.testBit_or, mask_testBit k j (by omega)]
      simp [hkj]
  · by_cases hbit : (v >>> (k - 1)) &&& 0x1 = 0
    · have hvq : v < 2 ^ (k - 1) := hbit_iff.mp hbit
      rw [sign_extend, if_pos hbit]
      unfold toSigned
      have h1 : v < 2 ^ (16 - 1) := by norm_num; omega
      rw [if_pos h1, if_pos hvq]
    · have hvq : ¬ v < 2 ^ (k - 1) := fun hc => hbit (hbit_iff.mpr hc)
      rw [hmask hbit, hmask_add]
      unfold toSigned
      have h1 : ¬ 65536 - 2 ^ k + v < 2 ^ (16 - 1) := by norm_num; omega
      rw [if_neg h1, if_neg hvq]
      have hc1 : ((2:Int) ^ 16) = 65536 := by norm_num
      have hc2 : ((2:Int) ^ k) = ((2 ^ k : Nat) : Int) := by push_cast; ring
      rw [hc1, hc2]
      omega


/-- Witness for `sign_extend_correct` at k = 5, v = 16 (sign bit set). -/
theorem sign_extend_correct_witness :
    (16 : Nat) < 2 ^ 5 ∧ toSigned (sign_extend 16 5) 16 = toSigned 16 5 :=
  ⟨by decide, (sign_extend_correct 5 (Or.inl rfl) 16 (by decide)).2.2⟩


/-- Spec-side encoder: the byte stream of a list of (high, low) byte
pairs, in file order. -/
def pairs_bytes : List (Nat × Nat) → List Nat
  | [] => []
  | p :: ps => p.1 :: p.2 :: pairs_bytes ps

lemma store_words_lt (ws : List Nat) (mem : Nat → Nat) (origin a : Nat) (h : a < origin) :
    store_words mem origin ws a = mem a := by
  induction ws generalizing mem origin with
  | nil => rfl
  | cons w ws ih =>
    rw [store_words, ih _ _ (by omega)]
    exact upd_other mem origin w a (by omega)

lemma store_words_ge (ws : List Nat) (mem : Nat → Nat) (origin a : Nat)
    (h : origin + ws.length ≤ a) :
    store_words mem origin ws a = mem a := by
  induction ws generalizing mem origin with
  | nil => rfl
  | cons w ws ih =>
    have hl : (w :: ws).length = ws.length + 1 := rfl
    rw [store_words, ih _ _ (by omega)]
    exact upd_other mem origin w a (by omega)

lemma store_words_get (ws : List Nat) (mem : Nat → Nat) (origin i : Nat)
    (h : i < ws.length) :
    store_words mem origin ws (origin + i) = ws[i] := by
  induction ws generalizing mem origin i with
  | nil => exact absurd h (by simp)
  | cons w ws ih =>
    match i with
    | 0 =>
      rw [store_words]
      have h1 : store_words (upd mem origin w) (origin + 1) ws (origin + 0) =
          upd mem origin w (origin + 0) := store_words_lt ws _ _ _ (by omega)
      rw [h1]
      simpa using upd_self mem origin w
    | i + 1 =>
      rw [store_words]
      have h2 : origin + (i + 1) = (origin + 1) + i := by omega
      rw [h2, ih _ _ i (by simpa using Nat.lt_of_succ_lt_succ h)]
      simp

lemma read_image_loop_spec (pairs : List (Nat × Nat)) (vm : VM) (origin : Nat)
    (hfit : origin + pairs.length < 65536) :
    read_image_loop vm origin (pairs_bytes pairs) =
      some { vm with
        memory := store_words vm.memory origin (pairs.map (fun p => (p.1 <<< 8) ||| p.2)) } := by
  induction pairs generalizing vm origin with
  | nil => rfl
  | cons p ps ih =>
    rw [pairs_bytes, read_image_loop]
    rw [if_pos (by simp at hfit; omega)]
    rw [ih _ _ (by simp at hfit ⊢; omega)]
    rfl



/-- Claim C7: loading an image whose byte stream is a big-endian origin
word followed by the big-endian words w1..wn (given as byte pairs) succeeds
and stores wi at memory[origin + i - 1] for i in 1..n, leaves every other
memory word and all other state unchanged. -/
theorem read_image_round_trip (vm : VM) (o0 o1 : Nat) (pairs : List (Nat × Nat))
    (hfit : ((o0 <<< 8) ||| o1) + pairs.length < 65536) :
    ∃ vm', read_image vm (o0 :: o1 :: pairs_bytes pairs) = some vm' ∧
      (∀ i, ∀ _h : i < pairs.length,
        vm'.memory (((o0 <<< 8) ||| o1) + i) = ((pairs[i].1 <<< 8) ||| pairs[i].2)) ∧
      (∀ a, a < ((o0 <<< 8) ||| o1) ∨ ((o0 <<< 8) ||| o1) + pairs.length ≤ a →
        vm'.memory a = vm.memory a) ∧
      vm'.regs = vm.regs ∧ vm'.input = vm.input ∧ vm'.output = vm.output ∧
      vm'.halted = vm.halted := by
  have h := read_image_loop_spec pairs vm ((o0 <<< 8) ||| o1) hfit
  refine ⟨{ vm with
      memory := store_words vm.memory ((o0 <<< 8) ||| o1)
        (pairs.map (fun p => (p.1 <<< 8) ||| p.2)) }, ?_, ?_, ?_, rfl, rfl, rfl, rfl⟩
  · rw [read_image]
    exact h
  · intro i hi
    show store_words vm.memory ((o0 <<< 8) ||| o1)
        (pairs.map (fun p => (p.1 <<< 8) ||| p.2)) (((o0 <<< 8) ||| o1) + i) = _
    rw [store_words_get _ _ _ _ (by simpa using hi)]
    simp
  · intro a ha
    show store_words vm.memory ((o0 <<< 8) ||| o1)
        (pairs.map (fun p => (p.1 <<< 8) ||| p.2)) a = vm.memory a
    rcases ha with ha | ha
    · exact store_words_lt _ _ _ _ ha
    · exact store_words_ge _ _ _ _ (by simpa using ha)


/-- Witness for `read_image_round_trip`: origin 0x3000 followed by the
single word 0x1234. -/
theorem read_image_round_trip_witness :
    ((0x30 <<< 8) ||| 0) + ([((0x12 : Nat), (0x34 : Nat))]).length < 65536 ∧
    (∃ vm', read_image VM.new (0x30 :: 0 :: pairs_bytes [(0x12, 0x34)]) = some vm' ∧
      vm'.memory 0x3000 = 0x1234) := by
  refine ⟨by decide, ?_⟩
  obtain ⟨vm', h1, h2, _⟩ := read_image_round_trip VM.new 0x30 0 [(0x12, 0x34)] (by decide)
  refine ⟨vm', h1, ?_⟩
  have h3 := h2 0 (by decide)
  have e1 : (((0x30 <<< 8) ||| 0) + 0 : Nat) = 0x3000 := by decide
  have e2 : ((([((0x12 : Nat), (0x34 : Nat))])[0].1 <<< 8) |||
      ([((0x12 : Nat), (0x34 : Nat))])[0].2 : Nat) = 0x1234 := by decide
  rw [e1, e2] at h3
  exact h3


/-- Claim C8 (amended): a TRAP with a vector outside 0x20..0x25 leaves
memory, input, output and the halt flag unchanged and writes no register
except GR7, which receives the current PC (the unconditional save that
precedes the vector dispatch). -/
theorem trap_unknown_vector_effect (vm : VM) (instr : Nat)
    (hv : instr &&& 0xff < 0x20 ∨ 0x25 < instr &&& 0xff) :
    trap vm instr = some (vm.write_reg RegisterType.R7 vm.read_pc) ∧
    (vm.write_reg RegisterType.R7 vm.read_pc).memory = vm.memory ∧
    (vm.write_reg RegisterType.R7 vm.read_pc).regs 7 = vm.regs 8 ∧
    (∀ i, i ≠ 7 → (vm.write_reg RegisterType.R7 vm.read_pc).regs i = vm.regs i) ∧
    (vm.write_reg RegisterType.R7 vm.read_pc).input = vm.input ∧
    (vm.write_reg RegisterType.R7 vm.read_pc).output = vm.output ∧
    (vm.write_reg RegisterType.R7 vm.read_pc).halted = vm.halted := by
  refine ⟨?_, rfl, by exact upd_self vm.regs 7 (vm.regs 8),
    fun i hi => by exact upd_other vm.regs 7 (vm.regs 8) i hi, rfl, rfl, rfl⟩
  unfold trap
  rw [if_neg (by omega), if_neg (by omega), if_neg (by omega), if_neg (by omega),
    if_neg (by omega), if_neg (by omega)]

/-- Claim C8, as stated, is false on the code: a TRAP with unknown vector
0x26 from the initial state overwrites GR7 (0 becomes 0x3000, the saved
PC), so not all registers are left unchanged. -/
theorem trap_unknown_vector_counterexample :
    (trap VM.new 0xF026).map (fun v => v.regs 7) = some 0x3000 ∧
    VM.new.regs 7 = 0 ∧
    (trap VM.new 0xF026).map (fun v => v.regs 7) ≠ some (VM.new.regs 7) := by
  exact ⟨rfl, rfl, by decide⟩

/-- Witness for `trap_unknown_vector_effect` at vector 0x26. -/
theorem trap_unknown_vector_effect_witness :
    ((0xF026 : Nat) &&& 0xff < 0x20 ∨ (0x25 : Nat) < 0xF026 &&& 0xff) ∧
    trap VM.new 0xF026 = some (VM.new.write_reg RegisterType.R7 VM.new.read_pc) :=
  ⟨by decide, (trap_unknown_vector_effect VM.new 0xF026 (by decide)).1⟩



/-- Claim C9 (amended): for every machine state whose 16-bit PC is
neither 0xFFFF (where the unchecked PC increment overflows) nor 0xFE00
(where the fetch itself triggers the keyboard MMIO side effect), executing
an instruction whose opcode is 8 (RTI) or 13 (reserved) only increments PC
by 1; every other register, all of memory, and the I/O streams are
unchanged. -/
theorem step_illegal_opcode_noop (vm : VM)
    (hpc : vm.regs 8 < 65535) (hk : vm.regs 8 ≠ 0xFE00)
    (hop : (vm.memory (vm.regs 8)) >>> 12 = 8 ∨ (vm.memory (vm.regs 8)) >>> 12 = 13) :
    ∃ vm', step vm = some vm' ∧
      vm'.regs 8 = vm.regs 8 + 1 ∧
      (∀ i, i ≠ 8 → vm'.regs i = vm.regs i) ∧
      vm'.memory = vm.memory ∧ vm'.input = vm.input ∧ vm'.output = vm.output ∧
      vm'.halted = vm.halted := by
  have hadd : vm.add_pc = some { vm with regs := upd vm.regs 8 (vm.regs 8 + 1) } := by
    simp only [VM.add_pc, get_index]
    rw [if_pos (by omega)]
  have hrm : VM.read_memory { vm with regs := upd vm.regs 8 (vm.regs 8 + 1) }
      (vm.regs 8) = some (vm.memory (vm.regs 8),
        { vm with regs := upd vm.regs 8 (vm.regs 8 + 1) }) :=
    read_memory_other _ _ hk
  have hstep : step vm = some { vm with regs := upd vm.regs 8 (vm.regs 8 + 1) } := by
    unfold step
    simp only [VM.read_pc, get_index, hadd, hrm]
    rcases hop with h | h
    · rw [h]
      rfl
    · rw [h]
      rfl
  refine ⟨_, hstep, by exact upd_self vm.regs 8 (vm.regs 8 + 1),
    fun i hi => by exact upd_other vm.regs 8 (vm.regs 8 + 1) i hi, rfl, rfl, rfl, rfl⟩



/-- Claim C9, as stated, is false on the code at PC = 0xFE00: the fetch
reads 0xFE00, so the MMIO poll stores 0x8000 there and the next stdin byte
at 0xFE02 before dispatch; the fetched word 0x8000 has opcode 8, yet
memory is not left unchanged (0xFE02 goes from 0 to 65) and a byte of
input is consumed. -/
theorem step_illegal_opcode_counterexample :
    ((VM.add_pc { VM.new with regs := upd VM.new.regs 8 0xFE00, input := [65] }).bind
      (fun v1 => (v1.read_memory 0xFE00).map (fun p => p.1 >>> 12))) = some 8 ∧
    (step { VM.new with regs := upd VM.new.regs 8 0xFE00, input := [65] }).map
      (fun v => (v.regs 8, v.memory 0xFE00, v.memory 0xFE02, v.input)) =
      some (0xFE01, 0x8000, 65, []) ∧
    (step { VM.new with regs := upd VM.new.regs 8 0xFE00, input := [65] }).map
      (fun v => v.memory 0xFE02) ≠
      some (({ VM.new with regs := upd VM.new.regs 8 0xFE00, input := [65] } : VM).memory 0xFE02) := by
  exact ⟨rfl, rfl, by decide⟩

/-- Witness for `step_illegal_opcode_noop`: instruction 0x8000 (opcode 8)
at PC = 0x3000 advances PC to 0x3001. -/
theorem step_illegal_opcode_noop_witness :
    (({ VM.new with memory := upd VM.new.memory 0x3000 0x8000 } : VM).regs 8 < 65535) ∧
    (∃ vm', step { VM.new with memory := upd VM.new.memory 0x3000 0x8000 } = some vm' ∧
      vm'.regs 8 = 0x3001) := by
  refine ⟨by decide, ?_⟩
  obtain ⟨vm', h1, h2, _⟩ :=
    step_illegal_opcode_noop { VM.new with memory := upd VM.new.memory 0x3000 0x8000 }
      (by decide) (by decide) (Or.inl (by decide))
  refine ⟨vm', h1, ?_⟩
  rw [h2]
  rfl

/-- Claim C10: ST and STR write exactly one memory word — the source
register's value at the computed address (PC-relative for ST, base
register plus offset for STR) — and leave the whole register file and the
I/O streams unchanged. -/
theorem st_str_frame (vm : VM) (instr : Nat) :
    ((st vm instr).regs = vm.regs ∧ (st vm instr).input = vm.input ∧
      (st vm instr).output = vm.output ∧ (st vm instr).halted = vm.halted ∧
      (st vm instr).memory ((vm.regs 8 + sign_extend (instr &&& 0x1ff) 9) % 65536) =
        vm.regs ((instr >>> 9) &&& 0x7) ∧
      (∀ a, a ≠ (vm.regs 8 + sign_extend (instr &&& 0x1ff) 9) % 65536 →
        (st vm instr).memory a = vm.memory a)) ∧
    ((str vm instr).regs = vm.regs ∧ (str vm instr).input = vm.input ∧
      (str vm instr).output = vm.output ∧ (str vm instr).halted = vm.halted ∧
      (str vm instr).memory
          ((vm.regs ((instr >>> 6) &&& 0x7) + sign_extend (instr &&& 0x3f) 6) % 65536) =
        vm.regs ((instr >>> 9) &&& 0x7) ∧
      (∀ a, a ≠ (vm.regs ((instr >>> 6) &&& 0x7) + sign_extend (instr &&& 0x3f) 6) % 65536 →
        (str vm instr).memory a = vm.memory a)) := by
  refine ⟨⟨rfl, rfl, rfl, rfl, ?_, ?_⟩, ⟨rfl, rfl, rfl, rfl, ?_, ?_⟩⟩
  · exact upd_self vm.memory _ _
  · intro a ha
    exact upd_other vm.memory _ _ a ha
  · exact upd_self vm.memory _ _
  · intro a ha
    exact upd_other vm.memory _ _ a ha

/-- Witness for `st_str_frame`: ST with offset 0 from the initial state
writes memory[0x3000] and leaves address 0 alone. -/
theorem st_str_frame_witness :
    (st VM.new 0x3000).memory ((VM.new.regs 8 + sign_extend (0x3000 &&& 0x1ff) 9) % 65536) =
      VM.new.regs ((0x3000 >>> 9) &&& 0x7) ∧
    (0 : Nat) ≠ (VM.new.regs 8 + sign_extend (0x3000 &&& 0x1ff) 9) % 65536 ∧
    (st VM.new 0x3000).memory 0 = VM.new.memory 0 :=
  ⟨(st_str_frame VM.new 0x3000).1.2.2.2.2.1, by decide,
    (st_str_frame VM.new 0x3000).1.2.2.2.2.2 0 (by decide)⟩


end LC3
